import Mathlib

/-!
Shallow embedding of the numeric-kernel extension modules of this repository:
the C elementwise vector kernels and their Python wrappers
(code_examples/hpc/carthimetic/main.c), the C++ kernels
(code_examples/hpc/cpparthimetic/main.cc), the pi approximation
(notebooks/hpc/cpiapprox/main.c) and the particle record sketch
(code_examples/hpc/minimization/particle.h).

Double-precision values are modelled by exact rationals: every claim settled
here is about the structure of the loops (which element is combined with
which, output length, error behaviour), with one machine arithmetic
operation in the source mapped to one rational operation in the model.
-/

/-- State of the three buffers a, b, c manipulated by the C kernels
vecadd, vecmul, vecdiv in carthimetic/main.c.  The buffers a and b are the
inputs, c is the output buffer allocated by the wrapper. -/
structure VecState where
  a : List ℚ
  b : List ℚ
  c : List ℚ

/-- One iteration of the C kernel loop body, c[i] = op(a[i], b[i]).
Reads past the end of a buffer are modelled by the default value 0
(they never occur on the calls made by the wrappers). -/
def kernelStep (op : ℚ → ℚ → ℚ) (s : VecState) (i : ℕ) : VecState :=
  { s with c := s.c.set i (op (s.a.getD i 0) (s.b.getD i 0)) }

/-- The C kernel loop, for (i = 0; i < N; i++) c[i] = op(a[i], b[i]),
iterating in source order i = 0, 1, ..., N-1. -/
def kernelLoop (op : ℚ → ℚ → ℚ) (N : ℕ) (s : VecState) : VecState :=
  (List.range N).foldl (kernelStep op) s

/-- vecadd from carthimetic/main.c: elementwise sum written into c. -/
def vecadd (N : ℕ) (a b c : List ℚ) : List ℚ :=
  (kernelLoop (· + ·) N ⟨a, b, c⟩).c

/-- vecmul from carthimetic/main.c: elementwise product written into c. -/
def vecmul (N : ℕ) (a b c : List ℚ) : List ℚ :=
  (kernelLoop (· * ·) N ⟨a, b, c⟩).c

/-- vecdiv from carthimetic/main.c: elementwise quotient written into c.
The source performs machine division with no guard on zero divisors. -/
def vecdiv (N : ℕ) (a b c : List ℚ) : List ℚ :=
  (kernelLoop (· / ·) N ⟨a, b, c⟩).c

/-- The Python wrapper pattern shared by pyvecadd, pyvecmul, pyvecdiv in
carthimetic/main.c: arraySize is the length of listA only (no length
comparison with listB is ever made); buffers of arraySize doubles are
allocated with PyMem_Calloc (zero-filled); the first arraySize elements of
both lists are copied in; the kernel runs; the c buffer is returned as a
new list.  When listB is shorter than listA the copy loop indexes listB out
of bounds (PyList_GetItem returns NULL and PyFloat_AS_DOUBLE dereferences
it): that undefined behaviour is modelled as none.  none is NOT an error
raised to the caller; the only error return in the source is a failed
argument parse, which cannot happen for two lists of numbers. -/
def pyKernel (kernel : ℕ → List ℚ → List ℚ → List ℚ → List ℚ)
    (listA listB : List ℚ) : Option (List ℚ) :=
  let arraySize := listA.length
  if listB.length < arraySize then none
  else some (kernel arraySize (listA.take arraySize) (listB.take arraySize)
    (List.replicate arraySize 0))

/-- pyvecadd from carthimetic/main.c. -/
def pyvecadd (listA listB : List ℚ) : Option (List ℚ) := pyKernel vecadd listA listB

/-- pyvecmul from carthimetic/main.c. -/
def pyvecmul (listA listB : List ℚ) : Option (List ℚ) := pyKernel vecmul listA listB

/-- pyvecdiv from carthimetic/main.c. -/
def pyvecdiv (listA listB : List ℚ) : Option (List ℚ) := pyKernel vecdiv listA listB

/-- The C++ kernel pattern of cpparthimetic/main.cc: std::transform over the
range of a, reading b through a second iterator and appending op(a[i], b[i])
to a freshly constructed vector c.  The range of b is never checked: when b
is shorter than a the transform dereferences past its end, modelled as
none (undefined behaviour, not an error return). -/
def transform2 (op : ℚ → ℚ → ℚ) : List ℚ → List ℚ → Option (List ℚ)
  | [], _ => some []
  | _ :: _, [] => none
  | x :: xs, y :: ys => (transform2 op xs ys).map (fun t => op x y :: t)

/-- vecadd from cpparthimetic/main.cc (std::plus on doubles). -/
def vecaddCC (a b : List ℚ) : Option (List ℚ) := transform2 (· + ·) a b

/-- vecmul from cpparthimetic/main.cc (std::multiplies on doubles). -/
def vecmulCC (a b : List ℚ) : Option (List ℚ) := transform2 (· * ·) a b

/-- vecdiv from cpparthimetic/main.cc (std::divides on doubles). -/
def vecdivCC (a b : List ℚ) : Option (List ℚ) := transform2 (· / ·) a b

/-- compute_pi from cpiapprox/main.c: dh = 1.0/partitions, then
for (i = 0; i < partitions; i++) area += 4.0/(1.0 + x*x) with
x = dh * (i - 0.5), returning area*dh.  The accumulation order of the
source loop (i = 0, 1, ...) is kept by the left fold.  Note the source
offset is (i - 0.5), not (i + 0.5).  In the exact model 1/0 = 0, whereas
the C double computation at partitions = 0 yields dh = +inf and the
returned value 0.0 * inf = NaN; either way the function returns a value. -/
def compute_pi (partitions : ℕ) : ℚ :=
  let dh : ℚ := 1 / partitions
  let area : ℚ := (List.range partitions).foldl
    (fun (area : ℚ) (i : ℕ) =>
      area + 4 / (1 + (dh * ((i : ℚ) - 0.5)) * (dh * ((i : ℚ) - 0.5)))) 0
  area * dh

/-- The Python-level compute_pi call of cpiapprox/main.c: the only NULL
(error) return in the source is a failed parse of the argument tuple, which
cannot happen for a nonnegative integer argument; no validation of
partitions is performed, so every call returns a float. -/
def py_compute_pi (partitions : ℕ) : Option ℚ :=
  some (compute_pi partitions)

/-- The particle record of minimization/particle.h: id (uint32_t), x, y,
mass (double), in source field order. -/
structure Particle where
  id : ℕ
  x : ℚ
  y : ℚ
  mass : ℚ

/-- Particle_new from minimization/particle.h: the freshly allocated
particle before Particle_init applies any explicit arguments. -/
def Particle_new : Particle :=
  { id := 0, mass := 1.0, x := 0.0, y := 0.0 }

/-! ## Helper lemmas about the kernel loop -/

/-- The kernel loop body never writes to the a buffer. -/
theorem foldl_kernelStep_a (op : ℚ → ℚ → ℚ) (l : List ℕ) (s : VecState) :
    (l.foldl (kernelStep op) s).a = s.a := by
  induction l generalizing s with
  | nil => rfl
  | cons x xs ih => rw [List.foldl_cons, ih]; rfl

/-- The kernel loop body never writes to the b buffer. -/
theorem foldl_kernelStep_b (op : ℚ → ℚ → ℚ) (l : List ℕ) (s : VecState) :
    (l.foldl (kernelStep op) s).b = s.b := by
  induction l generalizing s with
  | nil => rfl
  | cons x xs ih => rw [List.foldl_cons, ih]; rfl

theorem kernelLoop_a (op : ℚ → ℚ → ℚ) (N : ℕ) (s : VecState) :
    (kernelLoop op N s).a = s.a :=
  foldl_kernelStep_a op (List.range N) s

theorem kernelLoop_b (op : ℚ → ℚ → ℚ) (N : ℕ) (s : VecState) :
    (kernelLoop op N s).b = s.b :=
  foldl_kernelStep_b op (List.range N) s

/-- After N iterations the first N cells of c hold op(a[i], b[i]) and the
rest of c is untouched. -/
theorem kernelLoop_c_spec (op : ℚ → ℚ → ℚ) (N : ℕ) (s : VecState)
    (hN : N ≤ s.c.length) :
    (kernelLoop op N s).c =
      (List.range N).map (fun i => op (s.a.getD i 0) (s.b.getD i 0)) ++ s.c.drop N := by
  induction N with
  | zero => simp [kernelLoop]
  | succ n ih =>
    have hn : n ≤ s.c.length := Nat.le_of_succ_le hN
    have hlt : n < s.c.length := hN
    have hc : (kernelLoop op (n + 1) s).c =
        ((kernelLoop op n s).c).set n (op (s.a.getD n 0) (s.b.getD n 0)) := by
      rw [kernelLoop, List.range_succ, List.foldl_append, List.foldl_cons, List.foldl_nil]
      show (((List.range n).foldl (kernelStep op) s).c).set n
          (op ((((List.range n).foldl (kernelStep op) s)).a.getD n 0)
            ((((List.range n).foldl (kernelStep op) s)).b.getD n 0)) = _
      rw [foldl_kernelStep_a, foldl_kernelStep_b]
      rfl
    rw [hc, ih hn]
    rw [List.set_append, if_neg (by simp), List.length_map, List.length_range,
      Nat.sub_self]
    rw [List.drop_eq_getElem_cons hlt, List.set_cons_zero]
    rw [List.range_succ, List.map_append, List.map_singleton, List.append_assoc,
      List.singleton_append]

/-- Reading the first N positions through getD is elementwise zipWith when
N is the length of a and b is at least as long. -/
theorem range_map_getD_eq_zipWith (op : ℚ → ℚ → ℚ) (a : List ℚ) :
    ∀ b : List ℚ, a.length ≤ b.length →
      (List.range a.length).map (fun i => op (a.getD i 0) (b.getD i 0)) =
        List.zipWith op a b := by
  induction a with
  | nil => intro b h; simp
  | cons x xs ih =>
    intro b h
    cases b with
    | nil => simp at h
    | cons y ys =>
      have h' : xs.length ≤ ys.length := by simpa using h
      rw [List.length_cons, List.range_succ_eq_map, List.map_cons, List.map_map]
      simp only [Function.comp_def, Nat.succ_eq_add_one, List.getD_cons_zero,
        List.getD_cons_succ]
      rw [List.zipWith_cons_cons, ih ys h']

/-- The Python wrapper on a length-compatible pair computes the elementwise
zipWith of the two input lists. -/
theorem pyKernel_eq_zipWith (op : ℚ → ℚ → ℚ) (a b : List ℚ)
    (h : a.length ≤ b.length) :
    pyKernel (fun N x y c => (kernelLoop op N ⟨x, y, c⟩).c) a b =
      some (List.zipWith op a b) := by
  simp only [pyKernel]
  rw [if_neg (by omega)]
  congr 1
  rw [List.take_length]
  rw [kernelLoop_c_spec op a.length ⟨a, b.take a.length, List.replicate a.length 0⟩
    (by simp)]
  simp only [List.drop_replicate, Nat.sub_self, List.replicate_zero, List.append_nil]
  have hcong : (List.range a.length).map
      (fun i => op (a.getD i 0) ((b.take a.length).getD i 0)) =
      (List.range a.length).map (fun i => op (a.getD i 0) (b.getD i 0)) := by
    apply List.map_congr_left
    intro i hi
    rw [List.mem_range] at hi
    rw [List.getD_eq_getElem?_getD (b.take a.length), List.getElem?_take, if_pos hi,
      ← List.getD_eq_getElem?_getD]
  rw [hcong, range_map_getD_eq_zipWith op a b h]

/-- When listB is shorter than listA the Python wrapper hits undefined
behaviour (modelled as none) for any kernel. -/
theorem pyKernel_eq_none (k : ℕ → List ℚ → List ℚ → List ℚ → List ℚ)
    (a b : List ℚ) (h : b.length < a.length) :
    pyKernel k a b = none := by
  simp only [pyKernel]
  rw [if_pos h]

theorem pyvecadd_eq_zipWith (a b : List ℚ) (h : a.length ≤ b.length) :
    pyvecadd a b = some (List.zipWith (· + ·) a b) :=
  pyKernel_eq_zipWith (· + ·) a b h

theorem pyvecmul_eq_zipWith (a b : List ℚ) (h : a.length ≤ b.length) :
    pyvecmul a b = some (List.zipWith (· * ·) a b) :=
  pyKernel_eq_zipWith (· * ·) a b h

theorem pyvecdiv_eq_zipWith (a b : List ℚ) (h : a.length ≤ b.length) :
    pyvecdiv a b = some (List.zipWith (· / ·) a b) :=
  pyKernel_eq_zipWith (· / ·) a b h

/-- The C++ transform on a length-compatible pair computes the elementwise
zipWith of the two input vectors. -/
theorem transform2_eq_zipWith (op : ℚ → ℚ → ℚ) (a : List ℚ) :
    ∀ b : List ℚ, a.length ≤ b.length →
      transform2 op a b = some (List.zipWith op a b) := by
  induction a with
  | nil => intro b h; cases b <;> simp [transform2]
  | cons x xs ih =>
    intro b h
    cases b with
    | nil => simp at h
    | cons y ys =>
      have h' : xs.length ≤ ys.length := by simpa using h
      rw [transform2, ih ys h']
      rfl

/-- When b is shorter than a the C++ transform reads past the end of b
(modelled as none). -/
theorem transform2_eq_none (op : ℚ → ℚ → ℚ) (a : List ℚ) :
    ∀ b : List ℚ, b.length < a.length → transform2 op a b = none := by
  induction a with
  | nil => intro b h; simp at h
  | cons x xs ih =>
    intro b h
    cases b with
    | nil => rfl
    | cons y ys =>
      have h' : ys.length < xs.length := by simpa using h
      rw [transform2, ih ys h']
      rfl

/-- getD through a zipWith, on indices inside both lists. -/
theorem getD_zipWith (op : ℚ → ℚ → ℚ) (a b : List ℚ) (i : ℕ)
    (hi : i < a.length) (h : a.length ≤ b.length) :
    (List.zipWith op a b).getD i 0 = op (a.getD i 0) (b.getD i 0) := by
  have hb : i < b.length := Nat.lt_of_lt_of_le hi h
  have hlen : i < (List.zipWith op a b).length := by
    rw [List.length_zipWith]
    omega
  rw [List.getD_eq_getElem _ _ hlen, List.getElem_zipWith,
    List.getD_eq_getElem _ _ hi, List.getD_eq_getElem _ _ hb]

/-- Left fold of successive additions over the loop range is the finite sum,
whatever the accumulation start. -/
theorem foldl_add_range (f : ℕ → ℚ) (n : ℕ) :
    ∀ init : ℚ, (List.range n).foldl (fun s i => s + f i) init =
      init + ∑ i ∈ Finset.range n, f i := by
  induction n with
  | zero => intro init; simp
  | succ m ih =>
    intro init
    rw [List.range_succ, List.foldl_append, ih, List.foldl_cons, List.foldl_nil,
      Finset.sum_range_succ, add_assoc]

/-! ## Claim theorems -/

/-- Claim C1: for every pair of equal-length sequences of doubles a and b,
vector_add (vecadd) returns a sequence c of the same length with
c[i] = a[i] + b[i] for every index i, and vector_multiply (vecmul) returns
c with c[i] = a[i] * b[i] for every index i, preserving order. -/
theorem vecadd_vecmul_elementwise (a b : List ℚ) (h : a.length = b.length) :
    (pyvecadd a b).isSome = true ∧ (pyvecmul a b).isSome = true ∧
    ((pyvecadd a b).getD []).length = a.length ∧
    ((pyvecmul a b).getD []).length = a.length ∧
    ∀ i, i < a.length →
      ((pyvecadd a b).getD []).getD i 0 = a.getD i 0 + b.getD i 0 ∧
      ((pyvecmul a b).getD []).getD i 0 = a.getD i 0 * b.getD i 0 := by
  rw [pyvecadd_eq_zipWith a b h.le, pyvecmul_eq_zipWith a b h.le]
  simp only [Option.isSome_some, Option.getD_some]
  refine ⟨trivial, trivial, ?_, ?_, ?_⟩
  · simp [List.length_zipWith, h]
  · simp [List.length_zipWith, h]
  · intro i hi
    exact ⟨getD_zipWith _ a b i hi h.le, getD_zipWith _ a b i hi h.le⟩

/-- Concrete instance of the C1 theorem at a = [1,2,3], b = [10,20,30]. -/
theorem vecadd_vecmul_elementwise_witness :
    ([1, 2, 3] : List ℚ).length = ([10, 20, 30] : List ℚ).length ∧
    ((pyvecadd [1, 2, 3] [10, 20, 30]).isSome = true ∧
      (pyvecmul [1, 2, 3] [10, 20, 30]).isSome = true ∧
      ((pyvecadd [1, 2, 3] [10, 20, 30]).getD []).length = ([1, 2, 3] : List ℚ).length ∧
      ((pyvecmul [1, 2, 3] [10, 20, 30]).getD []).length = ([1, 2, 3] : List ℚ).length ∧
      ∀ i, i < ([1, 2, 3] : List ℚ).length →
        ((pyvecadd [1, 2, 3] [10, 20, 30]).getD []).getD i 0 =
          ([1, 2, 3] : List ℚ).getD i 0 + ([10, 20, 30] : List ℚ).getD i 0 ∧
        ((pyvecmul [1, 2, 3] [10, 20, 30]).getD []).getD i 0 =
          ([1, 2, 3] : List ℚ).getD i 0 * ([10, 20, 30] : List ℚ).getD i 0) :=
  ⟨by decide, vecadd_vecmul_elementwise [1, 2, 3] [10, 20, 30] (by decide)⟩

/-- Claim C2 counterexample: on inputs of mismatched lengths 1 and 2 the
wrapper does not fail with any error: it succeeds and returns an output
sequence truncated to the length of the first argument. -/
theorem vecadd_mismatch_returns_output :
    ([1] : List ℚ).length ≠ ([1, 2] : List ℚ).length ∧
    pyvecadd [1] [1, 2] = some [2] :=
  ⟨by decide, by
    simp [pyvecadd, pyKernel, vecadd, kernelLoop, kernelStep, List.range_succ]
    norm_num⟩

/-- Claim C2 amended: neither module checks the input lengths and no
LengthMismatch error exists.  When b is at least as long as a, each of the
six kernel entry points returns the elementwise result over the first
len(a) positions, silently ignoring the tail of b; when b is shorter than
a, the calls read past the end of b (undefined behaviour, modelled none)
rather than raising an error. -/
theorem kernels_no_length_check (a b : List ℚ) (h : a.length ≠ b.length) :
    pyvecadd a b = (if b.length < a.length then none else some (List.zipWith (· + ·) a b)) ∧
    pyvecmul a b = (if b.length < a.length then none else some (List.zipWith (· * ·) a b)) ∧
    pyvecdiv a b = (if b.length < a.length then none else some (List.zipWith (· / ·) a b)) ∧
    vecaddCC a b = (if b.length < a.length then none else some (List.zipWith (· + ·) a b)) ∧
    vecmulCC a b = (if b.length < a.length then none else some (List.zipWith (· * ·) a b)) ∧
    vecdivCC a b = (if b.length < a.length then none else some (List.zipWith (· / ·) a b)) := by
  rcases Nat.lt_or_ge b.length a.length with hlt | hge
  · simp only [if_pos hlt]
    exact ⟨pyKernel_eq_none _ a b hlt, pyKernel_eq_none _ a b hlt,
      pyKernel_eq_none _ a b hlt, transform2_eq_none _ a b hlt,
      transform2_eq_none _ a b hlt, transform2_eq_none _ a b hlt⟩
  · simp only [if_neg (Nat.not_lt.mpr hge)]
    exact ⟨pyvecadd_eq_zipWith a b hge, pyvecmul_eq_zipWith a b hge,
      pyvecdiv_eq_zipWith a b hge, transform2_eq_zipWith _ a b hge,
      transform2_eq_zipWith _ a b hge, transform2_eq_zipWith _ a b hge⟩

/-- Concrete instance of the amended C2 theorem at a = [1], b = [1,2]. -/
theorem kernels_no_length_check_witness :
    ([1] : List ℚ).length ≠ ([1, 2] : List ℚ).length ∧
    (pyvecadd [1] [1, 2] = (if ([1, 2] : List ℚ).length < ([1] : List ℚ).length then none
        else some (List.zipWith (· + ·) [1] [1, 2])) ∧
      pyvecmul [1] [1, 2] = (if ([1, 2] : List ℚ).length < ([1] : List ℚ).length then none
        else some (List.zipWith (· * ·) [1] [1, 2])) ∧
      pyvecdiv [1] [1, 2] = (if ([1, 2] : List ℚ).length < ([1] : List ℚ).length then none
        else some (List.zipWith (· / ·) [1] [1, 2])) ∧
      vecaddCC [1] [1, 2] = (if ([1, 2] : List ℚ).length < ([1] : List ℚ).length then none
        else some (List.zipWith (· + ·) [1] [1, 2])) ∧
      vecmulCC [1] [1, 2] = (if ([1, 2] : List ℚ).length < ([1] : List ℚ).length then none
        else some (List.zipWith (· * ·) [1] [1, 2])) ∧
      vecdivCC [1] [1, 2] = (if ([1, 2] : List ℚ).length < ([1] : List ℚ).length then none
        else some (List.zipWith (· / ·) [1] [1, 2]))) :=
  ⟨by decide, kernels_no_length_check [1] [1, 2] (by decide)⟩

/-- Claim C3: for every positive n, compute_pi returns exactly
dh * (sum over i in [0, n) of 4 / (1 + x_i ^ 2)) with dh = 1/n and
x_i = dh * (i - 0.5), the sum being accumulated in loop order
i = 0, 1, ..., n-1 (left fold), in the exact-arithmetic model. -/
theorem compute_pi_eq_riemann_sum (n : ℕ) (h : 0 < n) :
    compute_pi n = (1 / (n : ℚ)) *
      ∑ i ∈ Finset.range n, 4 / (1 + ((1 / (n : ℚ)) * ((i : ℚ) - 0.5)) ^ 2) := by
  simp only [compute_pi]
  rw [foldl_add_range
    (fun i => 4 / (1 + ((1 / (n : ℚ)) * ((i : ℚ) - 0.5)) * ((1 / (n : ℚ)) * ((i : ℚ) - 0.5))))
    n 0]
  rw [zero_add, mul_comm]
  congr 1
  apply Finset.sum_congr rfl
  intro i _
  ring

/-- Concrete instance of the C3 theorem at n = 3. -/
theorem compute_pi_eq_riemann_sum_witness :
    0 < 3 ∧ compute_pi 3 = (1 / ((3 : ℕ) : ℚ)) *
      ∑ i ∈ Finset.range 3, 4 / (1 + ((1 / ((3 : ℕ) : ℚ)) * ((i : ℚ) - 0.5)) ^ 2) :=
  ⟨by decide, compute_pi_eq_riemann_sum 3 (by decide)⟩

/-- Claim C4 counterexample: compute_pi called with partitions = 0 returns a
value rather than failing: no InvalidArgument error path exists in the
source (with doubles the returned value is NaN, since dh = 1/0 = +inf and
the empty accumulation gives 0.0 * inf). -/
theorem compute_pi_zero_returns_value : (py_compute_pi 0).isSome = true := rfl

/-- Claim C4 amended: compute_pi never validates its argument and never
fails: for every partition count, including 0, a float value is returned. -/
theorem py_compute_pi_never_fails (n : ℕ) : (py_compute_pi n).isSome = true := rfl

/-- Claim C5: for every pair of equal-length sequences a and b with no zero
element of b, vector_divide (vecdiv) returns a sequence c of the same
length with c[i] = a[i] / b[i] for every index i. -/
theorem vecdiv_elementwise (a b : List ℚ) (h : a.length = b.length)
    (hb : ∀ x ∈ b, x ≠ 0) :
    (pyvecdiv a b).isSome = true ∧
    ((pyvecdiv a b).getD []).length = a.length ∧
    ∀ i, i < a.length →
      ((pyvecdiv a b).getD []).getD i 0 = a.getD i 0 / b.getD i 0 := by
  rw [pyvecdiv_eq_zipWith a b h.le]
  simp only [Option.isSome_some, Option.getD_some]
  refine ⟨trivial, ?_, ?_⟩
  · simp [List.length_zipWith, h]
  · intro i hi
    exact getD_zipWith _ a b i hi h.le

/-- Concrete instance of the C5 theorem at a = [10,20], b = [2,5]. -/
theorem vecdiv_elementwise_witness :
    ([10, 20] : List ℚ).length = ([2, 5] : List ℚ).length ∧
    (∀ x ∈ ([2, 5] : List ℚ), x ≠ 0) ∧
    ((pyvecdiv [10, 20] [2, 5]).isSome = true ∧
      ((pyvecdiv [10, 20] [2, 5]).getD []).length = ([10, 20] : List ℚ).length ∧
      ∀ i, i < ([10, 20] : List ℚ).length →
        ((pyvecdiv [10, 20] [2, 5]).getD []).getD i 0 =
          ([10, 20] : List ℚ).getD i 0 / ([2, 5] : List ℚ).getD i 0) :=
  ⟨by decide, by norm_num,
    vecdiv_elementwise [10, 20] [2, 5] (by decide) (by norm_num)⟩

/-- Claim C6 counterexample: dividing by a sequence that contains a zero
element does not fail: the call succeeds and returns an output sequence of
full length (the source divides with no guard; IEEE doubles yield inf
there), so no DivisionByZero error is raised. -/
theorem vecdiv_zero_divisor_returns_output :
    (pyvecdiv [1] [0]).isSome = true ∧ ((pyvecdiv [1] [0]).getD []).length = 1 := by
  rw [pyvecdiv_eq_zipWith [1] [0] (by decide)]
  exact ⟨rfl, rfl⟩

/-- Claim C6 amended: vecdiv performs no zero-divisor check: for every
equal-length pair, also when b contains zeros, both the C wrapper and the
C++ kernel return a full-length output sequence; no DivisionByZero error
exists (the machine division propagates IEEE inf/NaN at zero divisors). -/
theorem vecdiv_no_zero_check (a b : List ℚ) (h : a.length = b.length) :
    (pyvecdiv a b).isSome = true ∧
    ((pyvecdiv a b).getD []).length = a.length ∧
    (vecdivCC a b).isSome = true := by
  rw [pyvecdiv_eq_zipWith a b h.le,
    show vecdivCC a b = _ from transform2_eq_zipWith _ a b h.le]
  refine ⟨rfl, ?_, rfl⟩
  simp [List.length_zipWith, h]

/-- Concrete instance of the amended C6 theorem at a = [1], b = [0]. -/
theorem vecdiv_no_zero_check_witness :
    ([1] : List ℚ).length = ([0] : List ℚ).length ∧
    ((pyvecdiv [1] [0]).isSome = true ∧
      ((pyvecdiv [1] [0]).getD []).length = ([1] : List ℚ).length ∧
      (vecdivCC [1] [0]).isSome = true) :=
  ⟨by decide, vecdiv_no_zero_check [1] [0] (by decide)⟩

/-- Claim C7 (code bug witnessed): the estimate does not converge
monotonically: the two-partition estimate 64/17 is strictly farther from pi
than the one-partition estimate 16/5, because the source samples at
dh * (i - 0.5) instead of the midpoints dh * (i + 0.5). -/
theorem compute_pi_not_monotone :
    compute_pi 1 = 16 / 5 ∧ compute_pi 2 = 64 / 17 ∧
    |((compute_pi 2 : ℚ) : ℝ) - Real.pi| > |((compute_pi 1 : ℚ) : ℝ) - Real.pi| := by
  have h1 : compute_pi 1 = 16 / 5 := by
    simp [compute_pi, List.range_succ]
    norm_num
  have h2 : compute_pi 2 = 64 / 17 := by
    simp [compute_pi, List.range_succ]
    norm_num
  refine ⟨h1, h2, ?_⟩
  rw [h1, h2]
  have hpi : Real.pi < 3.15 := Real.pi_lt_d2
  have e1 : ((16 / 5 : ℚ) : ℝ) = 16 / 5 := by norm_num
  have e2 : ((64 / 17 : ℚ) : ℝ) = 64 / 17 := by norm_num
  rw [e1, e2]
  have b1 : (3.15 : ℝ) < 16 / 5 := by norm_num
  have b2 : (3.15 : ℝ) < 64 / 17 := by norm_num
  have b3 : (16 / 5 : ℝ) < 64 / 17 := by norm_num
  have p1 : (0 : ℝ) < 16 / 5 - Real.pi := by linarith
  have p2 : (0 : ℝ) < 64 / 17 - Real.pi := by linarith
  rw [abs_of_pos p2, abs_of_pos p1]
  linarith

/-- Claim C8: no kernel invocation mutates its input sequences: for each of
the add, multiply and divide loops, the a and b buffers of the state are
unchanged after the loop; only the freshly allocated c buffer is written. -/
theorem kernels_preserve_inputs (N : ℕ) (a b c : List ℚ) :
    ((kernelLoop (· + ·) N ⟨a, b, c⟩).a = a ∧ (kernelLoop (· + ·) N ⟨a, b, c⟩).b = b) ∧
    ((kernelLoop (· * ·) N ⟨a, b, c⟩).a = a ∧ (kernelLoop (· * ·) N ⟨a, b, c⟩).b = b) ∧
    ((kernelLoop (· / ·) N ⟨a, b, c⟩).a = a ∧ (kernelLoop (· / ·) N ⟨a, b, c⟩).b = b) :=
  ⟨⟨kernelLoop_a _ N _, kernelLoop_b _ N _⟩,
    ⟨kernelLoop_a _ N _, kernelLoop_b _ N _⟩,
    ⟨kernelLoop_a _ N _, kernelLoop_b _ N _⟩⟩

/-- Claim C9: a newly constructed Particle record, before any explicit
field arguments are applied, has default field values id = 0, mass = 1.0,
x = 0.0, y = 0.0. -/
theorem Particle_new_defaults :
    Particle_new.id = 0 ∧ Particle_new.mass = 1 ∧ Particle_new.x = 0 ∧
    Particle_new.y = 0 :=
  ⟨rfl, by norm_num [Particle_new], by norm_num [Particle_new],
    by norm_num [Particle_new]⟩

/-- Claim C10: on every pair of equal-length input sequences, the C kernels
of the carthimetic module and the C++ kernels of the cpparthimetic module
produce identical output sequences. -/
theorem c_cpp_kernels_agree (a b : List ℚ) (h : a.length = b.length) :
    pyvecadd a b = vecaddCC a b ∧ pyvecmul a b = vecmulCC a b ∧
    pyvecdiv a b = vecdivCC a b := by
  rw [pyvecadd_eq_zipWith a b h.le, pyvecmul_eq_zipWith a b h.le,
    pyvecdiv_eq_zipWith a b h.le,
    show vecaddCC a b = _ from transform2_eq_zipWith _ a b h.le,
    show vecmulCC a b = _ from transform2_eq_zipWith _ a b h.le,
    show vecdivCC a b = _ from transform2_eq_zipWith _ a b h.le]
  exact ⟨rfl, rfl, rfl⟩

/-- Concrete instance of the C10 theorem at a = [2,3], b = [4,5]. -/
theorem c_cpp_kernels_agree_witness :
    ([2, 3] : List ℚ).length = ([4, 5] : List ℚ).length ∧
    (pyvecadd [2, 3] [4, 5] = vecaddCC [2, 3] [4, 5] ∧
      pyvecmul [2, 3] [4, 5] = vecmulCC [2, 3] [4, 5] ∧
      pyvecdiv [2, 3] [4, 5] = vecdivCC [2, 3] [4, 5]) :=
  ⟨by decide, c_cpp_kernels_agree [2, 3] [4, 5] (by decide)⟩
